import Mathlib

/-
  Verification development for the consensus state core:
  a shallow embedding of the Consensus store (types/src/consensus.rs),
  the event dispatch helper (task-impls/src/helpers.rs), the external
  event streamer (src/events_source.rs) and the DA task state machine,
  together with theorems settling the specification claims.
-/

set_option maxHeartbeats 1000000

namespace HotShot

/-! ### Finite maps, modelling `BTreeMap` / `HashMap` extensionally -/

/-- Association list keyed by `Nat`; models `BTreeMap<K, V>` and `HashMap<K, V>`
(keys — view numbers, commitments — are modelled as `Nat`). Lookup takes the
first matching entry; all mutating operations keep at most one entry per key. -/
abbrev KMap (α : Type) := List (Nat × α)

namespace KMap

/-- `m.get(&k)` -/
def getv {α : Type} (m : KMap α) (k : Nat) : Option α :=
  (m.find? (fun e => e.1 == k)).map (fun e => e.2)

/-- `m.contains_key(&k)` -/
def containsv {α : Type} (m : KMap α) (k : Nat) : Bool :=
  (getv m k).isSome

/-- `m.insert(k, v)` (replacing any previous entry at `k`) -/
def insertv {α : Type} (m : KMap α) (k : Nat) (v : α) : KMap α :=
  (k, v) :: m.filter (fun e => !(e.1 == k))

/-- `m.remove(&k)` -/
def eraseKey {α : Type} (m : KMap α) (k : Nat) : KMap α :=
  m.filter (fun e => !(e.1 == k))

/-- `m.split_off(&k)` keeping the upper part: entries with key `≥ k`
(what `BTreeMap::split_off` returns and the source re-assigns to the field). -/
def keepGe {α : Type} (m : KMap α) (k : Nat) : KMap α :=
  m.filter (fun e => decide (k ≤ e.1))

/-- `m.retain(|key, _| *key >= k)` -/
def retainGe {α : Type} (m : KMap α) (k : Nat) : KMap α :=
  m.filter (fun e => decide (k ≤ e.1))

/-- `m.range(a..b)`: the entries with key in `[a, b)`. -/
def rangeKeys {α : Type} (m : KMap α) (a b : Nat) : KMap α :=
  m.filter (fun e => decide (a ≤ e.1) && decide (e.1 < b))

/-- The smallest key of the map (`m.iter().next()` on a `BTreeMap` yields the
entry with the smallest key), `none` when the map is empty. -/
def minKey {α : Type} (m : KMap α) : Option Nat :=
  match m.map Prod.fst with
  | [] => none
  | k :: ks => some (ks.foldl Nat.min k)

theorem getv_filter_key {α : Type} (p : Nat → Bool) (m : KMap α) (k : Nat) :
    getv (m.filter (fun e => p e.1)) k = if p k then getv m k else none := by
  induction m with
  | nil => simp [getv]
  | cons e m ih =>
    by_cases hek : e.1 = k
    · subst hek
      by_cases hp : p e.1
      · simp [getv, List.filter, hp, List.find?]
      · simp only [List.filter_cons, hp, Bool.false_eq_true, if_neg, if_false] at *
        simpa [getv, hp] using ih
    · have hne : (e.1 == k) = false := by simp [hek]
      by_cases hp : p e.1
      · simp only [List.filter_cons, hp, if_pos, if_true]
        simp only [getv, List.find?, hne] at *
        exact ih
      · simp only [List.filter_cons, hp, Bool.false_eq_true, if_neg, if_false]
        simp only [getv, List.find?, hne] at *
        exact ih

theorem getv_keepGe {α : Type} (m : KMap α) (a k : Nat) :
    getv (keepGe m a) k = if a ≤ k then getv m k else none := by
  simpa using getv_filter_key (fun x => decide (a ≤ x)) m k

theorem getv_retainGe {α : Type} (m : KMap α) (a k : Nat) :
    getv (retainGe m a) k = if a ≤ k then getv m k else none := by
  simpa using getv_filter_key (fun x => decide (a ≤ x)) m k

theorem getv_eraseKey {α : Type} (m : KMap α) (k0 k : Nat) :
    getv (eraseKey m k0) k = if k = k0 then none else getv m k := by
  have h := getv_filter_key (fun x => !(x == k0)) m k
  by_cases hk : k = k0 <;> simp [eraseKey, hk] at h ⊢ <;> simpa [hk] using h

theorem getv_fold_erase {α : Type} (l : List Nat) (m : KMap α) (k : Nat) :
    getv (l.foldl (fun acc c => eraseKey acc c) m) k =
      if k ∈ l then none else getv m k := by
  induction l generalizing m with
  | nil => simp
  | cons c l ih =>
    simp only [List.foldl_cons, List.mem_cons]
    rw [ih]
    by_cases hk : k = c
    · subst hk
      simp [getv_eraseKey]
    · by_cases hl : k ∈ l <;> simp [hl, hk, getv_eraseKey]

theorem getv_insertv_self {α : Type} (m : KMap α) (k : Nat) (v : α) :
    getv (insertv m k v) k = some v := by
  simp [getv, insertv, List.find?]

theorem mem_of_getv {α : Type} (m : KMap α) (k : Nat) (v : α)
    (h : getv m k = some v) : (k, v) ∈ m := by
  unfold getv at h
  cases hfind : m.find? (fun e => e.1 == k) with
  | none => rw [hfind] at h; simp at h
  | some e =>
    rw [hfind] at h
    simp only [Option.map] at h
    have hmem := List.mem_of_find?_eq_some hfind
    have hkey := List.find?_some hfind
    have hk : e.1 = k := by simpa using hkey
    have : e = (k, v) := by
      cases e with
      | mk a b => simp_all
    rwa [this] at hmem

theorem minKey_eq_none_iff {α : Type} (m : KMap α) :
    minKey m = none ↔ m = [] := by
  cases m <;> simp [minKey]

end KMap

/-! ### Core data types

The node-level types (`ViewInner`, `View`, `Leaf`, `QuorumCertificate`,
`HotShotAction`, `Terminator`, `HotShotError`) are declared outside the
store's own module in the codebase; their shapes here follow the spec's
data model (§3) and how `consensus.rs` pattern-matches them. Opaque
cryptographic payloads (commitments, states, deltas, certificates,
proposals, encoded payload bytes) are modelled as `Nat`. -/

/-- Modelled from the spec: a leaf references its parent by commitment and
carries its view number; the commitment of the leaf itself is the key under
which it is stored in `saved_leaves`. -/
structure LeafT where
  viewNumber : Nat
  parentCommitment : Nat
deriving DecidableEq, Repr

/-- Modelled from the spec: the three View-record variants — `Leaf`
(leaf commitment, validated state, optional state delta), `Da`
(payload commitment only), `Failed` (no leaf produced). -/
inductive ViewInnerT
  | da (payloadCommitment : Nat)
  | leaf (leafCommit : Nat) (state : Nat) (delta : Option Nat)
  | failed
deriving DecidableEq, Repr

/-- The per-view `View` record wrapping a `ViewInner`. -/
structure ViewT where
  viewInner : ViewInnerT
deriving DecidableEq, Repr

/-- `ViewInner::leaf_commitment`: `Some` exactly for the `Leaf` variant. -/
def ViewT.leaf_commitment (v : ViewT) : Option Nat :=
  match v.viewInner with
  | .leaf l _ _ => some l
  | _ => none

/-- `ViewInner::state_and_delta`: `(Some state, delta)` for the `Leaf`
variant, `(None, None)` otherwise. -/
def ViewT.state_and_delta (v : ViewT) : Option Nat × Option Nat :=
  match v.viewInner with
  | .leaf _ st d => (some st, d)
  | _ => (none, none)

/-- A quorum certificate: its own view number plus opaque vote data. -/
structure QuorumCertificateT where
  viewNumber : Nat
  voteData : Nat
deriving DecidableEq, Repr

/-- Modelled from the spec: the four network-visible action kinds tracked
by the last-action bundle (propose / vote / DA-propose / DA-vote). -/
inductive HotShotAction
  | propose
  | vote
  | daPropose
  | daVote
deriving DecidableEq, Repr

/-- `HotShotActionViews`: the most recent view at which each action kind
was performed. -/
structure HotShotActionViews where
  proposed : Nat
  voted : Nat
  da_proposed : Nat
  da_vote : Nat
deriving DecidableEq, Repr

/-- `HotShotActionViews::from_view` -/
def HotShotActionViews.from_view (v : Nat) : HotShotActionViews :=
  { proposed := v, voted := v, da_proposed := v, da_vote := v }

/-- Modelled from the spec: the traversal terminator — stop just before the
exclusive bound, or just after the inclusive bound. -/
inductive Terminator
  | exclusive (n : Nat)
  | inclusive (n : Nat)
deriving DecidableEq, Repr

/-- The error cases `visit_leaf_ancestors` produces:
`HotShotError::InvalidState(msg)` and `HotShotError::MissingLeaf(commitment)`. -/
inductive HotShotErrorT
  | invalidState (msg : String)
  | missingLeaf (commitment : Nat)
deriving DecidableEq, Repr

/-! ### The Consensus store -/

/-- The `Consensus<TYPES>` store (metrics omitted: observability only).
`vid_shares` maps view → (signer key → share proposal); DA certificates,
quorum proposals, payload bytes and VID share proposals are opaque `Nat`s. -/
structure Consensus where
  validated_state_map : KMap ViewT
  vid_shares : KMap (KMap Nat)
  saved_da_certs : KMap Nat
  cur_view : Nat
  cur_epoch : Nat
  last_proposals : KMap Nat
  last_decided_view : Nat
  locked_view : Nat
  saved_leaves : KMap LeafT
  last_actions : HotShotActionViews
  saved_payloads : KMap Nat
  high_qc : QuorumCertificateT
deriving DecidableEq, Repr

namespace Consensus

/-- `Consensus::update_view` -/
def update_view (c : Consensus) (view_number : Nat) : Consensus × Except String Unit :=
  if c.cur_view < view_number then
    ({ c with cur_view := view_number }, .ok ())
  else
    (c, .error "New view is not newer than the current view.")

/-- `Consensus::update_epoch` -/
def update_epoch (c : Consensus) (epoch_number : Nat) : Consensus × Except String Unit :=
  if c.cur_epoch < epoch_number then
    ({ c with cur_epoch := epoch_number }, .ok ())
  else
    (c, .error "New epoch is not newer than the current epoch.")

/-- `Consensus::update_last_decided_view` -/
def update_last_decided_view (c : Consensus) (view_number : Nat) :
    Consensus × Except String Unit :=
  if c.last_decided_view < view_number then
    ({ c with last_decided_view := view_number }, .ok ())
  else
    (c, .error "New view is not newer than the previously decided view.")

/-- `Consensus::update_locked_view` -/
def update_locked_view (c : Consensus) (view_number : Nat) :
    Consensus × Except String Unit :=
  if c.locked_view < view_number then
    ({ c with locked_view := view_number }, .ok ())
  else
    (c, .error "New view is not newer than the previously locked view.")

/-- `Consensus::update_high_qc` -/
def update_high_qc (c : Consensus) (qc : QuorumCertificateT) :
    Consensus × Except String Unit :=
  if c.high_qc.viewNumber < qc.viewNumber then
    ({ c with high_qc := qc }, .ok ())
  else
    (c, .error "High QC with an equal or higher view exists.")

/-- `Consensus::update_action`: records the action view; returns whether the
action is for a newer view than the last action of that kind. The `DaVote`
arm always returns `true` (recording only when newer), per the source's
explicit TODO about double-voting across adjacent DA views. -/
def update_action (c : Consensus) (action : HotShotAction) (view : Nat) :
    Consensus × Bool :=
  match action with
  | .vote =>
      if c.last_actions.voted < view then
        ({ c with last_actions := { c.last_actions with voted := view } }, true)
      else (c, false)
  | .propose =>
      if c.last_actions.proposed < view then
        ({ c with last_actions := { c.last_actions with proposed := view } }, true)
      else (c, false)
  | .daPropose =>
      if c.last_actions.da_proposed < view then
        ({ c with last_actions := { c.last_actions with da_proposed := view } }, true)
      else (c, false)
  | .daVote =>
      if c.last_actions.da_vote < view then
        ({ c with last_actions := { c.last_actions with da_vote := view } }, true)
      else (c, true)

/-- `Consensus::update_validated_state_map`: refuses to overwrite a `Leaf`
record either with a `Leaf` record that would drop a known delta or with a
non-`Leaf` record; otherwise installs the new record. -/
def update_validated_state_map (c : Consensus) (view_number : Nat) (new_view : ViewT) :
    Consensus × Except String Unit :=
  match KMap.getv c.validated_state_map view_number with
  | some existing_view =>
    match existing_view.viewInner with
    | .leaf _ _ existing_delta =>
      match new_view.viewInner with
      | .leaf _ _ new_delta =>
        if new_delta.isSome || existing_delta.isNone then
          ({ c with validated_state_map :=
               KMap.insertv c.validated_state_map view_number new_view }, .ok ())
        else
          (c, .error "Skipping the state update to not override a Leaf view with Some state delta.")
      | _ =>
        (c, .error "Skipping the state update to not override a Leaf view with a non-Leaf view.")
    | _ =>
      ({ c with validated_state_map :=
           KMap.insertv c.validated_state_map view_number new_view }, .ok ())
  | none =>
      ({ c with validated_state_map :=
           KMap.insertv c.validated_state_map view_number new_view }, .ok ())

/-- `Consensus::update_saved_payloads`: write-once per view. -/
def update_saved_payloads (c : Consensus) (view_number : Nat) (encoded_transaction : Nat) :
    Consensus × Except String Unit :=
  if KMap.containsv c.saved_payloads view_number then
    (c, .error "Payload with the same view already exists.")
  else
    ({ c with saved_payloads :=
         KMap.insertv c.saved_payloads view_number encoded_transaction }, .ok ())

/-- `Consensus::update_vid_shares` -/
def update_vid_shares (c : Consensus) (view_number : Nat) (recipient_key : Nat)
    (disperse : Nat) : Consensus :=
  let inner := (KMap.getv c.vid_shares view_number).getD []
  { c with vid_shares :=
      KMap.insertv c.vid_shares view_number (KMap.insertv inner recipient_key disperse) }

/-- `Consensus::update_saved_da_certs` -/
def update_saved_da_certs (c : Consensus) (view_number : Nat) (cert : Nat) : Consensus :=
  { c with saved_da_certs := KMap.insertv c.saved_da_certs view_number cert }

/-- `Consensus::state_and_delta` on the store: looks the view up in the
validated-state map. -/
def state_and_delta (c : Consensus) (view_number : Nat) : Option Nat × Option Nat :=
  match KMap.getv c.validated_state_map view_number with
  | some v => v.state_and_delta
  | none => (none, none)

end Consensus

/-- `Terminator::Exclusive(stop_before)` matches the current view (checked
before the visitor runs). -/
def Terminator.stopExclusive : Terminator → Nat → Bool
  | .exclusive n, view => n == view
  | _, _ => false

/-- `Terminator::Inclusive(stop_after)` matches the current view (checked
after the visitor runs). -/
def Terminator.stopInclusive : Terminator → Nat → Bool
  | .inclusive n, view => n == view
  | _, _ => false

namespace Consensus

/-- The `while let` loop of `Consensus::visit_leaf_ancestors`, with an
explicit fuel bound (the source loop is unbounded; `none` means the fuel ran
out before the traversal terminated). Returns the traversal result together
with the list of leaves passed to the visitor, in visit order. Falling out
of the loop — including via `break` on a terminator bound with
`ok_when_finished` false — produces `Err(MissingLeaf(next_leaf))` with
`next_leaf` as it stands at that point. -/
def visit_loop (c : Consensus) (terminator : Terminator) (ok_when_finished : Bool)
    (f : LeafT → Nat → Option Nat → Bool) :
    Nat → Nat → Option (Except HotShotErrorT Unit × List LeafT)
  | 0, _ => none
  | fuel + 1, next_leaf =>
    match KMap.getv c.saved_leaves next_leaf with
    | none => some (.error (.missingLeaf next_leaf), [])
    | some leaf =>
      match c.state_and_delta leaf.viewNumber with
      | (some state, delta) =>
        if terminator.stopExclusive leaf.viewNumber then
          (if ok_when_finished then some (.ok (), [])
           else some (.error (.missingLeaf next_leaf), []))
        else if !(f leaf state delta) then
          some (.ok (), [leaf])
        else if terminator.stopInclusive leaf.viewNumber then
          (if ok_when_finished then some (.ok (), [leaf])
           else some (.error (.missingLeaf leaf.parentCommitment), [leaf]))
        else
          match visit_loop c terminator ok_when_finished f fuel leaf.parentCommitment with
          | none => none
          | some (r, vs) => some (r, leaf :: vs)
      | (none, _) =>
        some (.error (.invalidState
          ("View " ++ toString leaf.viewNumber ++ " state does not exist in state map")), [])

/-- `Consensus::visit_leaf_ancestors`: resolves the starting leaf commitment
from the validated-state map, then walks the parent chain via `visit_loop`. -/
def visit_leaf_ancestors (c : Consensus) (start_from : Nat) (terminator : Terminator)
    (ok_when_finished : Bool) (f : LeafT → Nat → Option Nat → Bool) (fuel : Nat) :
    Option (Except HotShotErrorT Unit × List LeafT) :=
  match KMap.getv c.validated_state_map start_from with
  | none =>
    some (.error (.invalidState
      ("View " ++ toString start_from ++ " leaf does not exist in state map ")), [])
  | some v =>
    match v.leaf_commitment with
    | none =>
      some (.error (.invalidState
        ("Visited failed view " ++ toString start_from ++ " leaf. Expected successful leaf")), [])
    | some commit => visit_loop c terminator ok_when_finished f fuel commit

/-- The leaf commitments recorded by validated-state-map entries with view in
`[old_anchor_view, new_anchor_view)` — the leaves `collect_garbage` removes. -/
def gc_commits (c : Consensus) (old_anchor_view new_anchor_view : Nat) : List Nat :=
  (KMap.rangeKeys c.validated_state_map old_anchor_view new_anchor_view).filterMap
    (fun e => e.2.leaf_commitment)

/-- The removal phase of `Consensus::collect_garbage`: retain DA certificates
at or after the old anchor, remove the saved leaves referenced by state-map
entries in `[old_anchor, new_anchor)`, and truncate the four ordered maps to
keys at or after the new anchor. -/
def gc_body (c : Consensus) (old_anchor_view new_anchor_view : Nat) : Consensus :=
  { c with
      saved_da_certs := KMap.retainGe c.saved_da_certs old_anchor_view,
      saved_leaves := (c.gc_commits old_anchor_view new_anchor_view).foldl
        (fun m cm => KMap.eraseKey m cm) c.saved_leaves,
      validated_state_map := KMap.keepGe c.validated_state_map new_anchor_view,
      saved_payloads := KMap.keepGe c.saved_payloads new_anchor_view,
      vid_shares := KMap.keepGe c.vid_shares new_anchor_view,
      last_proposals := KMap.keepGe c.last_proposals new_anchor_view }

/-- `Consensus::collect_garbage`. `none` models the `expect` panic when the
validated-state map is empty. Otherwise the garbage collection is performed;
the returned flag records whether the non-fatal `error!` diagnostic fired
because the earliest state-map view differs from `old_anchor_view` (the
source logs and proceeds in that case). -/
def collect_garbage (c : Consensus) (old_anchor_view new_anchor_view : Nat) :
    Option (Consensus × Bool) :=
  match KMap.minKey c.validated_state_map with
  | none => none
  | some earliest =>
    some (c.gc_body old_anchor_view new_anchor_view,
      decide (earliest ≠ old_anchor_view))

end Consensus

/-! ### Event dispatch helper and external event streamer -/

/-- Log severities of the tracing collaborator, in increasing order. -/
inductive LogLevel
  | trace
  | debug
  | warn
  | error
deriving DecidableEq, Repr

/-- Numeric severity rank of a log level. -/
def LogLevel.rank : LogLevel → Nat
  | .trace => 0
  | .debug => 1
  | .warn => 2
  | .error => 3

/-- Modelled from the spec: the many-producer many-consumer bounded broadcast
channel (the async-broadcast collaborator): a buffer of retained events, a
capacity, the overflow policy flag, the await-active flag, and whether any
active receiver / the channel itself is still alive. -/
structure BChan (α : Type) where
  buf : List α
  capacity : Nat
  overflow : Bool
  await_active : Bool
  active_receivers : Nat
  closed : Bool
deriving DecidableEq, Repr

/-- Result of a direct broadcast: delivered (with the dropped oldest event on
overflow), rejected returning the event, or would suspend the sender. -/
inductive SendRes (α : Type)
  | sent (dropped : Option α)
  | failed (ev : α)
  | wouldBlock
deriving DecidableEq, Repr

/-- The send-rejection condition: the channel is closed, or it has no active
receivers while `await_active` is off. -/
def BChan.sendFails {α : Type} (ch : BChan α) : Bool :=
  ch.closed || (ch.active_receivers == 0 && !ch.await_active)

/-- Modelled from the spec: `Sender::broadcast_direct`. A closed channel, or
one with no active receivers while `await_active` is off, rejects the send
returning the event; a channel with room appends; a full channel with the
overflow policy drops the oldest retained event and appends; a full channel
without overflow would suspend the sender. -/
def BChan.broadcast_direct {α : Type} (ch : BChan α) (ev : α) : BChan α × SendRes α :=
  if ch.sendFails then
    (ch, .failed ev)
  else if ch.buf.length < ch.capacity then
    ({ ch with buf := ch.buf ++ [ev] }, .sent none)
  else if ch.overflow then
    match ch.buf with
    | [] => ({ ch with buf := [ev] }, .sent none)
    | old :: rest => ({ ch with buf := rest ++ [ev] }, .sent (some old))
  else
    (ch, .wouldBlock)

/-- A log record emitted by `broadcast_event`: severity plus the event named
in the message, if any. -/
structure LogEntry (α : Type) where
  level : LogLevel
  named : Option α
deriving DecidableEq, Repr

/-- `broadcast_event` (task-impls/src/helpers.rs): fire-and-forget send.
`Ok(None)` — nothing; `Ok(Some(overflowed))` — log at `error` naming the
dropped event; `Err(SendError(e))` — log at `warn` naming the event.
(The `wouldBlock` case corresponds to the source suspending inside
`broadcast_direct`; it is unreachable on an overflow-enabled channel.) -/
def broadcast_event {α : Type} (event : α) (sender : BChan α) :
    BChan α × List (LogEntry α) :=
  match BChan.broadcast_direct sender event with
  | (ch2, .sent none) => (ch2, [])
  | (ch2, .sent (some overflowed)) => (ch2, [⟨.error, some overflowed⟩])
  | (ch2, .failed e) => (ch2, [⟨.warn, some e⟩])
  | (ch2, .wouldBlock) => (ch2, [])

/-- `RETAINED_EVENTS_COUNT` (src/events_source.rs) -/
def RETAINED_EVENTS_COUNT : Nat := 4096

/-- Modelled from the spec: the externally visible event kinds; the four
kinds the streamer forwards are explicit, every other `EventType` variant is
collapsed into `otherEvent` (the source matches them with a wildcard). -/
inductive EventTypeT
  | daProposal (data : Nat)
  | quorumProposal (data : Nat)
  | transactions (data : Nat)
  | decide (data : Nat)
  | otherEvent (tag : Nat)
deriving DecidableEq, Repr

/-- An `Event`: view number plus the underlying event type. -/
structure EventT where
  view_number : Nat
  event : EventTypeT
deriving DecidableEq, Repr

namespace EventsStreamer

/-- `EventsStreamer::new`: a channel of capacity `RETAINED_EVENTS_COUNT`,
overflow enabled, await-active disabled, the only receiver deactivated. -/
def new_channel : BChan EventT :=
  { buf := [], capacity := RETAINED_EVENTS_COUNT, overflow := true,
    await_active := false, active_receivers := 0, closed := false }

/-- The filter match inside `EventsStreamer::handle_event`. -/
def event_filter (ev : EventT) : Bool :=
  match ev.event with
  | .daProposal _ => true
  | .quorumProposal _ => true
  | .transactions _ => true
  | .decide _ => true
  | .otherEvent _ => false

/-- `EventsStreamer::handle_event`: forwards the event into the subscriber
channel when the filter matches (ignoring the send status); otherwise the
event is dropped without touching the channel. -/
def handle_event (ch : BChan EventT) (ev : EventT) : BChan EventT :=
  if event_filter ev then (BChan.broadcast_direct ch ev).1 else ch

end EventsStreamer

/-! ### DA task state machine -/

/-- Modelled from the spec: the DA task's internal events (§2, §4.4). The
payloads carried by proposals, votes and keys are opaque `Nat`s. -/
inductive HotShotEventT
  | viewChange (v : Nat)
  | blockRecv (v : Nat) (payload : Nat)
  | daProposalRecv (v : Nat) (payload : Nat) (sender : Nat)
  | daProposalSend (v : Nat) (payload : Nat) (sender : Nat)
  | daProposalValidated (v : Nat) (payload : Nat) (sender : Nat)
  | daVoteSend (v : Nat)
deriving DecidableEq, Repr

/-- Modelled from the spec: the DA task's per-node state (§4.4) — the tracked
current view, the last view we sent a DA proposal for (the store's
append-only `last_proposals` contract), and the views whose DA proposal has
already been fully processed (validated and, when durably recorded, voted). -/
structure DaTaskState where
  cur_view : Nat
  last_proposed_view : Nat
  processed_views : List Nat
deriving DecidableEq, Repr

/-- Modelled from the spec: the DA task's collaborators (§6) — the storage
collaborator's append outcome, proposal structural/authorship validation
against the sender's eligibility, our own leadership per view, and our key. -/
structure DaEnv where
  storage_append_ok : Bool
  valid_proposal : Nat → Nat → Bool
  is_leader : Nat → Bool
  self_key : Nat

/-- Modelled from the spec: the DA task transition function (§4.4, the
`hotshot_task_impls::da` handler is not among the sources — only its test
is). `ViewChange` advances the tracked view when strictly newer;
`BlockRecv` (as leader, not yet proposed) emits `DaProposalSend`;
`DaProposalRecv` validates, then durably appends: on success emits
`DaProposalValidated` then `DaVoteSend`, on failure emits
`DaProposalValidated` only; an explicit `DaProposalValidated` input for an
already-processed view produces no output (idempotence), while a fresh one
casts the vote only when the durable append succeeds. -/
def da_handle (env : DaEnv) (st : DaTaskState) :
    HotShotEventT → DaTaskState × List HotShotEventT
  | .viewChange v =>
    if st.cur_view < v then ({ st with cur_view := v }, []) else (st, [])
  | .blockRecv v payload =>
    if env.is_leader v && decide (st.last_proposed_view < v) then
      ({ st with last_proposed_view := v }, [.daProposalSend v payload env.self_key])
    else (st, [])
  | .daProposalRecv v payload sender =>
    if !(env.valid_proposal v sender) then (st, [])
    else if st.processed_views.contains v then (st, [])
    else if env.storage_append_ok then
      ({ st with processed_views := v :: st.processed_views },
       [.daProposalValidated v payload sender, .daVoteSend v])
    else
      ({ st with processed_views := v :: st.processed_views },
       [.daProposalValidated v payload sender])
  | .daProposalValidated v _payload _sender =>
    if st.processed_views.contains v then (st, [])
    else if env.storage_append_ok then
      ({ st with processed_views := v :: st.processed_views }, [.daVoteSend v])
    else (st, [])
  | .daProposalSend _ _ _ => (st, [])
  | .daVoteSend _ => (st, [])

/-! ### Auxiliary definitions for the theorems -/

/-- Whether a Rust `Result<()>`-style value is `Ok`. -/
def exceptIsOk : Except String Unit → Bool
  | .ok _ => true
  | .error _ => false

/-- A store with empty tables and genesis markers, the base of the concrete
scenarios below. -/
def emptyConsensus : Consensus :=
  { validated_state_map := [], vid_shares := [], saved_da_certs := [],
    cur_view := 0, cur_epoch := 0, last_proposals := [],
    last_decided_view := 0, locked_view := 0, saved_leaves := [],
    last_actions := HotShotActionViews.from_view 0, saved_payloads := [],
    high_qc := { viewNumber := 0, voteData := 0 } }

/-- One call to a scalar-marker update operation of the store. -/
inductive MarkerOp
  | view (n : Nat)
  | epoch (n : Nat)
  | lastDecided (n : Nat)
  | locked (n : Nat)
  | highQc (qc : QuorumCertificateT)

/-- Apply one marker update call, keeping the (possibly unchanged) store and
discarding the result flag, as a caller treating failures as ignorable does. -/
def applyMarkerOp (c : Consensus) : MarkerOp → Consensus
  | .view n => (c.update_view n).1
  | .epoch n => (c.update_epoch n).1
  | .lastDecided n => (c.update_last_decided_view n).1
  | .locked n => (c.update_locked_view n).1
  | .highQc qc => (c.update_high_qc qc).1

/-- Apply a sequence of marker update calls. -/
def applyMarkerOps (c : Consensus) (ops : List MarkerOp) : Consensus :=
  ops.foldl applyMarkerOp c

theorem applyMarkerOp_mono (c : Consensus) (op : MarkerOp) :
    c.cur_view ≤ (applyMarkerOp c op).cur_view ∧
    c.cur_epoch ≤ (applyMarkerOp c op).cur_epoch ∧
    c.last_decided_view ≤ (applyMarkerOp c op).last_decided_view ∧
    c.locked_view ≤ (applyMarkerOp c op).locked_view ∧
    c.high_qc.viewNumber ≤ (applyMarkerOp c op).high_qc.viewNumber := by
  cases op <;>
    simp only [applyMarkerOp, Consensus.update_view, Consensus.update_epoch,
      Consensus.update_last_decided_view, Consensus.update_locked_view,
      Consensus.update_high_qc] <;>
    split <;> simp_all <;> omega

theorem applyMarkerOps_mono (c : Consensus) (ops : List MarkerOp) :
    c.cur_view ≤ (applyMarkerOps c ops).cur_view ∧
    c.cur_epoch ≤ (applyMarkerOps c ops).cur_epoch ∧
    c.last_decided_view ≤ (applyMarkerOps c ops).last_decided_view ∧
    c.locked_view ≤ (applyMarkerOps c ops).locked_view ∧
    c.high_qc.viewNumber ≤ (applyMarkerOps c ops).high_qc.viewNumber := by
  induction ops generalizing c with
  | nil => simp [applyMarkerOps]
  | cons op ops ih =>
    have h1 := applyMarkerOp_mono c op
    have h2 := ih (applyMarkerOp c op)
    simp only [applyMarkerOps, List.foldl_cons] at h2 ⊢
    exact ⟨le_trans h1.1 h2.1, le_trans h1.2.1 h2.2.1,
      le_trans h1.2.2.1 h2.2.2.1, le_trans h1.2.2.2.1 h2.2.2.2.1,
      le_trans h1.2.2.2.2 h2.2.2.2.2⟩

/-! ### Claim theorems -/

/-- C2: each scalar marker update (`update_view`, `update_epoch`,
`update_last_decided_view`, `update_locked_view`, `update_high_qc`) succeeds
exactly when the new value (for `update_high_qc`, the QC's view number) is
strictly greater than the marker's current value; on failure it returns an
error and leaves the store unchanged; consequently, over any sequence of
such calls every marker is monotonically non-decreasing. -/
theorem c2_scalar_marker_updates :
    (∀ (c : Consensus) (n : Nat),
      exceptIsOk (c.update_view n).2 = decide (c.cur_view < n) ∧
      (c.update_view n).1 = (if c.cur_view < n then { c with cur_view := n } else c)) ∧
    (∀ (c : Consensus) (n : Nat),
      exceptIsOk (c.update_epoch n).2 = decide (c.cur_epoch < n) ∧
      (c.update_epoch n).1 = (if c.cur_epoch < n then { c with cur_epoch := n } else c)) ∧
    (∀ (c : Consensus) (n : Nat),
      exceptIsOk (c.update_last_decided_view n).2 = decide (c.last_decided_view < n) ∧
      (c.update_last_decided_view n).1 =
        (if c.last_decided_view < n then { c with last_decided_view := n } else c)) ∧
    (∀ (c : Consensus) (n : Nat),
      exceptIsOk (c.update_locked_view n).2 = decide (c.locked_view < n) ∧
      (c.update_locked_view n).1 =
        (if c.locked_view < n then { c with locked_view := n } else c)) ∧
    (∀ (c : Consensus) (qc : QuorumCertificateT),
      exceptIsOk (c.update_high_qc qc).2 = decide (c.high_qc.viewNumber < qc.viewNumber) ∧
      (c.update_high_qc qc).1 =
        (if c.high_qc.viewNumber < qc.viewNumber then { c with high_qc := qc } else c)) ∧
    (∀ (c : Consensus) (ops : List MarkerOp),
      c.cur_view ≤ (applyMarkerOps c ops).cur_view ∧
      c.cur_epoch ≤ (applyMarkerOps c ops).cur_epoch ∧
      c.last_decided_view ≤ (applyMarkerOps c ops).last_decided_view ∧
      c.locked_view ≤ (applyMarkerOps c ops).locked_view ∧
      c.high_qc.viewNumber ≤ (applyMarkerOps c ops).high_qc.viewNumber) := by
  refine ⟨?_, ?_, ?_, ?_, ?_, applyMarkerOps_mono⟩ <;>
    · intro c n
      constructor <;>
        · simp only [Consensus.update_view, Consensus.update_epoch,
            Consensus.update_last_decided_view, Consensus.update_locked_view,
            Consensus.update_high_qc]
          split <;> simp_all [exceptIsOk]

/-- C7: `update_action` returns whether the action is for a newer view than
the last recorded action of that kind, recording the view when newer; for
`Propose`, `Vote` and `DaPropose` it returns `true` exactly when the view is
strictly greater than the recorded one, while for `DaVote` it always returns
`true` (recording only when newer), so a recorded DA-vote never blocks a
later DA-vote action. -/
theorem c7_update_action (c : Consensus) (v : Nat) :
    ((c.update_action .propose v).2 = decide (c.last_actions.proposed < v) ∧
     (c.update_action .propose v).1.last_actions.proposed =
       (if c.last_actions.proposed < v then v else c.last_actions.proposed)) ∧
    ((c.update_action .vote v).2 = decide (c.last_actions.voted < v) ∧
     (c.update_action .vote v).1.last_actions.voted =
       (if c.last_actions.voted < v then v else c.last_actions.voted)) ∧
    ((c.update_action .daPropose v).2 = decide (c.last_actions.da_proposed < v) ∧
     (c.update_action .daPropose v).1.last_actions.da_proposed =
       (if c.last_actions.da_proposed < v then v else c.last_actions.da_proposed)) ∧
    ((c.update_action .daVote v).2 = true ∧
     (c.update_action .daVote v).1.last_actions.da_vote =
       (if c.last_actions.da_vote < v then v else c.last_actions.da_vote)) := by
  refine ⟨⟨?_, ?_⟩, ⟨?_, ?_⟩, ⟨?_, ?_⟩, ⟨?_, ?_⟩⟩ <;>
    · simp only [Consensus.update_action]
      split <;> simp_all

/-- C8: `update_saved_payloads(v, p)` fails when an entry for `v` already
exists, leaving the store (hence the existing payload) unchanged; otherwise
it succeeds and inserts `p` at `v`. -/
theorem c8_update_saved_payloads (c : Consensus) (v p : Nat) :
    exceptIsOk (c.update_saved_payloads v p).2 = !(KMap.containsv c.saved_payloads v) ∧
    (c.update_saved_payloads v p).1 =
      (if KMap.containsv c.saved_payloads v then c
       else { c with saved_payloads := KMap.insertv c.saved_payloads v p }) ∧
    (KMap.containsv c.saved_payloads v = false →
      KMap.getv (c.update_saved_payloads v p).1.saved_payloads v = some p) := by
  refine ⟨?_, ?_, ?_⟩
  · simp only [Consensus.update_saved_payloads]
    split <;> simp_all [exceptIsOk]
  · simp only [Consensus.update_saved_payloads]
    split <;> simp_all
  · intro h
    simp only [Consensus.update_saved_payloads, h, Bool.false_eq_true, if_neg]
    simpa using KMap.getv_insertv_self c.saved_payloads v p

/-- C8 witness: on the empty store, inserting payload 2 at view 1 succeeds
and is readable back. -/
theorem c8_update_saved_payloads_witness :
    KMap.containsv emptyConsensus.saved_payloads 1 = false ∧
    KMap.getv (emptyConsensus.update_saved_payloads 1 2).1.saved_payloads 1 = some 2 :=
  ⟨rfl, (c8_update_saved_payloads emptyConsensus 1 2).2.2 rfl⟩

/-- The failure condition of `update_validated_state_map` exactly as claim C5
states it: the existing record holds a leaf with a known (`Some`) delta, and
the incoming record is either a leaf record with an empty delta or a
non-leaf record. -/
def c5ClaimFailCond : Option ViewT → ViewT → Bool
  | some ex, r =>
    match ex.viewInner with
    | .leaf _ _ (some _) =>
      (match r.viewInner with
       | .leaf _ _ none => true
       | .leaf _ _ (some _) => false
       | _ => true)
    | _ => false
  | none, _ => false

/-- The failure condition as amended: the existing record holds a leaf
(whatever its delta), and the incoming record is either a non-leaf record,
or a leaf record with an empty delta while the existing delta is known. -/
def c5AmendedFailCond : Option ViewT → ViewT → Bool
  | some ex, r =>
    match ex.viewInner with
    | .leaf _ _ exDelta =>
      (match r.viewInner with
       | .leaf _ _ newDelta => newDelta.isNone && exDelta.isSome
       | _ => true)
    | _ => false
  | none, _ => false

/-- A store holding, at view 5, a leaf record with an empty (`None`) delta. -/
def c5Store : Consensus :=
  { emptyConsensus with validated_state_map := [(5, ⟨.leaf 10 20 none⟩)] }

/-- C5 counterexample: at view 5 the existing record is a leaf with an empty
delta — so the claim's failure condition does not hold — yet overwriting it
with a non-leaf (`Da`) record fails, refuting the claimed equivalence. -/
theorem c5_counterexample :
    c5ClaimFailCond (KMap.getv c5Store.validated_state_map 5) ⟨.da 7⟩ = false ∧
    exceptIsOk (c5Store.update_validated_state_map 5 ⟨.da 7⟩).2 = false ∧
    (c5Store.update_validated_state_map 5 ⟨.da 7⟩).1 = c5Store := by
  refine ⟨rfl, rfl, rfl⟩

/-- C5 as amended: `update_validated_state_map(v, r)` fails — returning an
error and leaving the store unchanged — exactly when the existing record at
`v` holds a leaf and `r` is either a non-leaf record, or a leaf record with
an empty delta while the existing delta is known; in every other case it
succeeds and installs `r` at `v`. -/
theorem c5_update_validated_state_map (c : Consensus) (v : Nat) (r : ViewT) :
    exceptIsOk (c.update_validated_state_map v r).2 =
      !(c5AmendedFailCond (KMap.getv c.validated_state_map v) r) ∧
    (c.update_validated_state_map v r).1 =
      (if c5AmendedFailCond (KMap.getv c.validated_state_map v) r then c
       else { c with validated_state_map := KMap.insertv c.validated_state_map v r }) := by
  unfold Consensus.update_validated_state_map c5AmendedFailCond
  cases hget : KMap.getv c.validated_state_map v with
  | none => simp [exceptIsOk]
  | some ex =>
    cases hex : ex.viewInner with
    | leaf l s d =>
      cases hr : r.viewInner with
      | leaf l2 s2 d2 =>
        cases d2 <;> cases d <;> simp [exceptIsOk, hex, hr]
      | da p => simp [exceptIsOk, hex, hr]
      | failed => simp [exceptIsOk, hex, hr]
    | da p => simp [exceptIsOk, hex]
    | failed => simp [exceptIsOk, hex]

/-- A store whose earliest validated-state entry is view 0, with a view-0 DA
certificate, used against `collect_garbage` called with old anchor 1. -/
def c3Store : Consensus :=
  { emptyConsensus with
      validated_state_map := [(0, ⟨.failed⟩), (1, ⟨.failed⟩)],
      saved_da_certs := [(0, 11)] }

/-- C3 counterexample: the earliest state-map view (0) differs from the old
anchor (1), yet `collect_garbage 1 2` does not abort — it returns, with the
mismatch merely logged, and has performed removals (the view-0 DA
certificate and the view-0 state entry are gone). -/
theorem c3_counterexample :
    KMap.minKey c3Store.validated_state_map = some 0 ∧
    c3Store.collect_garbage 1 2 = some (c3Store.gc_body 1 2, true) ∧
    KMap.getv (c3Store.gc_body 1 2).saved_da_certs 0 = none ∧
    KMap.getv (c3Store.gc_body 1 2).validated_state_map 0 = none :=
  ⟨rfl, rfl, rfl, rfl⟩

/-- C3 as amended: `collect_garbage` asserts fatally only that the
validated-state map is non-empty; when the earliest state-map view differs
from `old_anchor` it emits the (non-fatal) GC-failure diagnostic and still
proceeds to perform the garbage collection. -/
theorem c3_collect_garbage_assertion (c : Consensus) (a b : Nat) :
    ((c.collect_garbage a b).isNone = c.validated_state_map.isEmpty) ∧
    (∀ c2 flag, c.collect_garbage a b = some (c2, flag) →
      c2 = c.gc_body a b ∧
      (flag = true ↔ KMap.minKey c.validated_state_map ≠ some a)) := by
  constructor
  · unfold Consensus.collect_garbage
    cases hmin : KMap.minKey c.validated_state_map with
    | none =>
      have := (KMap.minKey_eq_none_iff c.validated_state_map).mp hmin
      simp [this]
    | some k =>
      have hne : c.validated_state_map ≠ [] := by
        intro he
        rw [(KMap.minKey_eq_none_iff c.validated_state_map).mpr he] at hmin
        exact Option.noConfusion hmin
      simp [List.isEmpty_iff, hne]
  · intro c2 flag h
    unfold Consensus.collect_garbage at h
    cases hmin : KMap.minKey c.validated_state_map with
    | none => rw [hmin] at h; exact Option.noConfusion h
    | some k =>
      rw [hmin] at h
      simp only [Option.some_inj, Prod.mk.injEq] at h
      obtain ⟨h1, h2⟩ := h
      refine ⟨h1.symm, ?_⟩
      subst h2
      constructor
      · intro hd
        simp only [decide_eq_true_eq] at hd
        simp [hd]
      · intro hne
        have : k ≠ a := by
          intro he; exact hne (by rw [he])
        simp [this]

/-- C3 amended-claim witness: instantiated on `c3Store` with anchors 1, 2 —
the call does not panic, and the mismatch flag is set because the earliest
entry is view 0, not 1. -/
theorem c3_collect_garbage_assertion_witness :
    (c3Store.collect_garbage 1 2).isNone = false ∧
    (true = true ↔ KMap.minKey c3Store.validated_state_map ≠ some 1) :=
  ⟨(c3_collect_garbage_assertion c3Store 1 2).1.trans rfl,
   ((c3_collect_garbage_assertion c3Store 1 2).2 (c3Store.gc_body 1 2) true rfl).2⟩

/-- C4: after `collect_garbage(A, B)` returns (with `A < B`), no entry with
view `< B` remains in the validated-state, saved-payloads, VID-shares or
last-proposals maps; every DA certificate with view `< A` is removed and
every one with view in `[A, B)` is preserved; and every saved leaf whose
commitment is recorded by a state-map entry with view in `[A, B)` is removed
from the saved-leaves map. -/
theorem c4_collect_garbage (c : Consensus) (a b : Nat) (c2 : Consensus) (flag : Bool)
    (hab : a < b) (hgc : c.collect_garbage a b = some (c2, flag)) :
    (∀ v, v < b → KMap.getv c2.validated_state_map v = none) ∧
    (∀ v, v < b → KMap.getv c2.saved_payloads v = none) ∧
    (∀ v, v < b → KMap.getv c2.vid_shares v = none) ∧
    (∀ v, v < b → KMap.getv c2.last_proposals v = none) ∧
    (∀ v, v < a → KMap.getv c2.saved_da_certs v = none) ∧
    (∀ v, a ≤ v → v < b → KMap.getv c2.saved_da_certs v = KMap.getv c.saved_da_certs v) ∧
    (∀ v vr cm, KMap.getv c.validated_state_map v = some vr → a ≤ v → v < b →
      vr.leaf_commitment = some cm → KMap.getv c2.saved_leaves cm = none) := by
  have hlt : a < b := hab
  have hc2 : c2 = c.gc_body a b := by
    unfold Consensus.collect_garbage at hgc
    cases hmin : KMap.minKey c.validated_state_map with
    | none => rw [hmin] at hgc; exact Option.noConfusion hgc
    | some k =>
      rw [hmin] at hgc
      simp only [Option.some_inj, Prod.mk.injEq] at hgc
      exact hgc.1.symm
  subst hc2
  unfold Consensus.gc_body
  refine ⟨?_, ?_, ?_, ?_, ?_, ?_, ?_⟩
  · intro v hv
    simp only [KMap.getv_keepGe]
    rw [if_neg (by omega)]
  · intro v hv
    simp only [KMap.getv_keepGe]
    rw [if_neg (by omega)]
  · intro v hv
    simp only [KMap.getv_keepGe]
    rw [if_neg (by omega)]
  · intro v hv
    simp only [KMap.getv_keepGe]
    rw [if_neg (by omega)]
  · intro v hv
    simp only [KMap.getv_retainGe]
    rw [if_neg (by omega)]
  · intro v hva hvb
    simp only [KMap.getv_retainGe]
    rw [if_pos hva]
  · intro v vr cm hget hva hvb hcm
    simp only [KMap.getv_fold_erase]
    rw [if_pos]
    have hmem : (v, vr) ∈ c.validated_state_map := KMap.mem_of_getv _ _ _ hget
    have hrange : (v, vr) ∈ KMap.rangeKeys c.validated_state_map a b := by
      unfold KMap.rangeKeys
      refine List.mem_filter.mpr ⟨hmem, ?_⟩
      simp [hva, hvb]
    unfold Consensus.gc_commits
    exact List.mem_filterMap.mpr ⟨(v, vr), hrange, hcm⟩

/-- A store populated across views 0–2 in every table, for instantiating the
garbage-collection theorem. -/
def c4Store : Consensus :=
  { emptyConsensus with
      validated_state_map :=
        [(1, ⟨.leaf 100 0 none⟩), (2, ⟨.leaf 200 0 none⟩)],
      saved_leaves := [(100, ⟨1, 99⟩), (200, ⟨2, 100⟩)],
      saved_da_certs := [(0, 5), (1, 6)],
      saved_payloads := [(1, 7)],
      vid_shares := [(1, [])],
      last_proposals := [(1, 8)] }

/-- C4 witness: `collect_garbage 1 2` on the populated store removes the
view-1 payload and the leaf at commitment 100, drops the view-0 DA
certificate, and preserves the view-1 certificate. -/
theorem c4_collect_garbage_witness :
    KMap.getv (c4Store.gc_body 1 2).saved_payloads 1 = none ∧
    KMap.getv (c4Store.gc_body 1 2).saved_da_certs 0 = none ∧
    KMap.getv (c4Store.gc_body 1 2).saved_da_certs 1 = KMap.getv c4Store.saved_da_certs 1 ∧
    KMap.getv (c4Store.gc_body 1 2).saved_leaves 100 = none := by
  have h := c4_collect_garbage c4Store 1 2 (c4Store.gc_body 1 2) false
    (by omega) rfl
  exact ⟨h.2.1 1 (by omega), h.2.2.2.2.1 0 (by omega),
    h.2.2.2.2.2.1 1 (le_refl 1) (by omega),
    h.2.2.2.2.2.2 1 ⟨.leaf 100 0 none⟩ 100 rfl (le_refl 1) (by omega) rfl⟩

/-! ### Leaf-ancestor traversal -/

theorem visit_loop_exclusive_not_visited (c : Consensus) (bnd : Nat) (ok : Bool)
    (f : LeafT → Nat → Option Nat → Bool) :
    ∀ fuel next r vs,
      c.visit_loop (.exclusive bnd) ok f fuel next = some (r, vs) →
      ∀ l ∈ vs, l.viewNumber ≠ bnd := by
  intro fuel
  induction fuel with
  | zero =>
    intro next r vs h
    simp [Consensus.visit_loop] at h
  | succ n ih =>
    intro next r vs h
    rw [Consensus.visit_loop] at h
    cases hget : KMap.getv c.saved_leaves next with
    | none =>
      simp only [hget, Option.some.injEq, Prod.mk.injEq] at h
      intro l hl
      rw [← h.2] at hl
      simp at hl
    | some leaf =>
      simp only [hget] at h
      cases hsd : c.state_and_delta leaf.viewNumber with
      | mk st d =>
        simp only [hsd] at h
        cases st with
        | none =>
          simp only [Option.some.injEq, Prod.mk.injEq] at h
          intro l hl
          rw [← h.2] at hl
          simp at hl
        | some s =>
          simp only [] at h
          by_cases hex : Terminator.stopExclusive (.exclusive bnd) leaf.viewNumber
          · rw [if_pos hex] at h
            split at h <;>
              · simp only [Option.some.injEq, Prod.mk.injEq] at h
                intro l hl
                rw [← h.2] at hl
                simp at hl
          · have hbnd : bnd ≠ leaf.viewNumber := by
              simpa [Terminator.stopExclusive] using hex
            rw [if_neg hex] at h
            by_cases hf : f leaf s d
            · rw [if_neg (by simp [hf])] at h
              have hincl :
                  Terminator.stopInclusive (.exclusive bnd) leaf.viewNumber = false := rfl
              rw [hincl] at h
              simp only [Bool.false_eq_true, if_false] at h
              cases hrec : c.visit_loop (.exclusive bnd) ok f n leaf.parentCommitment with
              | none => rw [hrec] at h; exact Option.noConfusion h
              | some p =>
                cases p with
                | mk r2 vs2 =>
                  simp only [hrec, Option.some.injEq, Prod.mk.injEq] at h
                  intro l hl
                  rw [← h.2] at hl
                  rcases List.mem_cons.mp hl with hl | hl
                  · rw [hl]; exact fun he => hbnd he.symm
                  · exact ih leaf.parentCommitment r2 vs2 hrec l hl
            · rw [if_pos (by simp [hf])] at h
              simp only [Option.some.injEq, Prod.mk.injEq] at h
              intro l hl
              rw [← h.2] at hl
              rcases List.mem_cons.mp hl with hl | hl
              · rw [hl]; exact fun he => hbnd he.symm
              · simp at hl

theorem visit_leaf_ancestors_exclusive_not_visited (c : Consensus) (start bnd : Nat)
    (ok : Bool) (f : LeafT → Nat → Option Nat → Bool) (fuel : Nat)
    (r : Except HotShotErrorT Unit) (vs : List LeafT)
    (h : c.visit_leaf_ancestors start (.exclusive bnd) ok f fuel = some (r, vs)) :
    ∀ l ∈ vs, l.viewNumber ≠ bnd := by
  unfold Consensus.visit_leaf_ancestors at h
  cases hget : KMap.getv c.validated_state_map start with
  | none =>
    simp only [hget, Option.some.injEq, Prod.mk.injEq] at h
    intro l hl
    rw [← h.2] at hl
    simp at hl
  | some v =>
    simp only [hget] at h
    cases hlc : v.leaf_commitment with
    | none =>
      simp only [hlc, Option.some.injEq, Prod.mk.injEq] at h
      intro l hl
      rw [← h.2] at hl
      simp at hl
    | some commit =>
      simp only [hlc] at h
      exact visit_loop_exclusive_not_visited c bnd ok f fuel commit r vs h

theorem visit_loop_missing_parent (c : Consensus) (terminator : Terminator) (ok : Bool)
    (f : LeafT → Nat → Option Nat → Bool) (fuel next : Nat)
    (h : KMap.getv c.saved_leaves next = none) :
    c.visit_loop terminator ok f (fuel + 1) next =
      some (.error (.missingLeaf next), []) := by
  rw [Consensus.visit_loop]
  simp [h]

theorem visit_loop_missing_state (c : Consensus) (terminator : Terminator) (ok : Bool)
    (f : LeafT → Nat → Option Nat → Bool) (fuel next : Nat) (leaf : LeafT)
    (hget : KMap.getv c.saved_leaves next = some leaf)
    (hst : (c.state_and_delta leaf.viewNumber).1 = none) :
    ∃ msg, c.visit_loop terminator ok f (fuel + 1) next =
      some (.error (.invalidState msg), []) := by
  cases hsd : c.state_and_delta leaf.viewNumber with
  | mk st d =>
    rw [hsd] at hst
    have hst2 : st = none := hst
    subst hst2
    rw [Consensus.visit_loop]
    simp only [hget, hsd]
    exact ⟨_, rfl⟩

/-- A store holding a parent-linked chain of three leaves at views 1, 2, 3
(leaf at view `i` stored under commitment `100 + i`, pointing at the leaf of
view `i - 1`), each view with a `Leaf` state-map entry. -/
def chain3 : Consensus :=
  { emptyConsensus with
      saved_leaves := [(101, ⟨1, 100⟩), (102, ⟨2, 101⟩), (103, ⟨3, 102⟩)],
      validated_state_map :=
        [(1, ⟨.leaf 101 11 none⟩), (2, ⟨.leaf 102 12 none⟩), (3, ⟨.leaf 103 13 none⟩)] }

/-- C6: on the 3-leaf chain, `visit_leaf_ancestors` from view 3 with
`Terminator::Exclusive(1)` and `ok_when_finished` visits exactly the leaves
of views 3 and 2, in that order, and succeeds; in general the exclusive
bound's leaf is never passed to the visitor; a parent commitment missing
from saved-leaves yields the missing-leaf error, while a missing starting
state-map entry, a failed starting entry, or a referenced view with no state
yields an invalid-state error. -/
theorem c6_visit_leaf_ancestors :
    (chain3.visit_leaf_ancestors 3 (.exclusive 1) true (fun _ _ _ => true) 10 =
      some (.ok (), [⟨3, 102⟩, ⟨2, 101⟩])) ∧
    (∀ (c : Consensus) (start bnd : Nat) (ok : Bool)
        (f : LeafT → Nat → Option Nat → Bool) (fuel : Nat)
        (r : Except HotShotErrorT Unit) (vs : List LeafT),
      c.visit_leaf_ancestors start (.exclusive bnd) ok f fuel = some (r, vs) →
      ∀ l ∈ vs, l.viewNumber ≠ bnd) ∧
    (∀ (c : Consensus) (terminator : Terminator) (ok : Bool)
        (f : LeafT → Nat → Option Nat → Bool) (fuel next : Nat),
      KMap.getv c.saved_leaves next = none →
      c.visit_loop terminator ok f (fuel + 1) next =
        some (.error (.missingLeaf next), [])) ∧
    (∀ (c : Consensus) (start : Nat) (terminator : Terminator) (ok : Bool)
        (f : LeafT → Nat → Option Nat → Bool) (fuel : Nat),
      KMap.getv c.validated_state_map start = none →
      ∃ msg, c.visit_leaf_ancestors start terminator ok f fuel =
        some (.error (.invalidState msg), [])) ∧
    (∀ (c : Consensus) (start : Nat) (vr : ViewT) (terminator : Terminator) (ok : Bool)
        (f : LeafT → Nat → Option Nat → Bool) (fuel : Nat),
      KMap.getv c.validated_state_map start = some vr →
      vr.leaf_commitment = none →
      ∃ msg, c.visit_leaf_ancestors start terminator ok f fuel =
        some (.error (.invalidState msg), [])) ∧
    (∀ (c : Consensus) (terminator : Terminator) (ok : Bool)
        (f : LeafT → Nat → Option Nat → Bool) (fuel next : Nat) (leaf : LeafT),
      KMap.getv c.saved_leaves next = some leaf →
      (c.state_and_delta leaf.viewNumber).1 = none →
      ∃ msg, c.visit_loop terminator ok f (fuel + 1) next =
        some (.error (.invalidState msg), [])) := by
  refine ⟨?_, visit_leaf_ancestors_exclusive_not_visited,
    visit_loop_missing_parent, ?_, ?_, visit_loop_missing_state⟩
  · rfl
  · intro c start terminator ok f fuel h
    unfold Consensus.visit_leaf_ancestors
    simp only [h]
    exact ⟨_, rfl⟩
  · intro c start vr terminator ok f fuel hget hlc
    unfold Consensus.visit_leaf_ancestors
    simp only [hget, hlc]
    exact ⟨_, rfl⟩

/-- C6 witness: the concrete 3-chain traversal succeeds visiting `[3, 2]`,
and (by the exclusive-bound clause applied to that run) no visited leaf has
view 1; the missing-parent clause yields the missing-leaf error on the empty
store at commitment 7. -/
theorem c6_visit_leaf_ancestors_witness :
    (chain3.visit_leaf_ancestors 3 (.exclusive 1) true (fun _ _ _ => true) 10 =
      some (.ok (), [⟨3, 102⟩, ⟨2, 101⟩])) ∧
    (∀ l ∈ [(⟨3, 102⟩ : LeafT), ⟨2, 101⟩], l.viewNumber ≠ 1) ∧
    (emptyConsensus.visit_loop (.exclusive 1) true (fun _ _ _ => true) 1 7 =
      some (.error (.missingLeaf 7), [])) :=
  ⟨c6_visit_leaf_ancestors.1,
   c6_visit_leaf_ancestors.2.1 chain3 3 1 true (fun _ _ _ => true) 10 (.ok ())
     [⟨3, 102⟩, ⟨2, 101⟩] c6_visit_leaf_ancestors.1,
   c6_visit_leaf_ancestors.2.2.1 emptyConsensus (.exclusive 1) true
     (fun _ _ _ => true) 0 7 rfl⟩

/-! ### Event dispatch and streaming -/

/-- C9: publishing through `broadcast_event` is fire-and-forget and total
over the streamer's channel configuration (capacity 4096, overflow enabled):
an overflow-enabled channel never blocks the publisher; a successful send
with room logs nothing; a full channel drops the oldest retained event and
logs a diagnostic at `error` severity naming the dropped event; a send on a
channel with no active subscribers is a no-op on the channel, logged at
`warn` — a strictly lower severity than the overflow diagnostic. -/
theorem c9_broadcast_event :
    (EventsStreamer.new_channel.capacity = 4096 ∧
     EventsStreamer.new_channel.overflow = true ∧
     EventsStreamer.new_channel.await_active = false) ∧
    (∀ (α : Type) (ch : BChan α) (ev : α), ch.overflow = true →
      (BChan.broadcast_direct ch ev).2 ≠ .wouldBlock) ∧
    (∀ (α : Type) (ch : BChan α) (ev : α),
      ch.sendFails = false → ch.buf.length < ch.capacity →
      broadcast_event ev ch = ({ ch with buf := ch.buf ++ [ev] }, [])) ∧
    (∀ (α : Type) (ch : BChan α) (ev old : α) (rest : List α),
      ch.sendFails = false → ¬ ch.buf.length < ch.capacity →
      ch.overflow = true → ch.buf = old :: rest →
      broadcast_event ev ch = ({ ch with buf := rest ++ [ev] }, [⟨.error, some old⟩])) ∧
    (∀ (α : Type) (ch : BChan α) (ev : α), ch.sendFails = true →
      broadcast_event ev ch = (ch, [⟨.warn, some ev⟩])) ∧
    LogLevel.rank .warn < LogLevel.rank .error := by
  refine ⟨⟨rfl, rfl, rfl⟩, ?_, ?_, ?_, ?_, ?_⟩
  · intro α ch ev hovf
    unfold BChan.broadcast_direct
    by_cases h1 : ch.sendFails
    · simp [h1]
    · by_cases h2 : ch.buf.length < ch.capacity
      · simp [h1, h2]
      · cases hbuf : ch.buf with
        | nil => simp [h1, h2, hovf, hbuf]
        | cons old rest =>
          simp only [BChan.broadcast_direct, h1, h2, hovf, hbuf]
          by_cases hc : rest.length + 1 < ch.capacity <;> simp [hc]
  · intro α ch ev h1 h2
    have hd : BChan.broadcast_direct ch ev = ({ ch with buf := ch.buf ++ [ev] }, .sent none) := by
      unfold BChan.broadcast_direct
      simp [h1, h2]
    rw [broadcast_event, hd]
  · intro α ch ev old rest h1 h2 h3 h4
    have hd : BChan.broadcast_direct ch ev =
        ({ ch with buf := rest ++ [ev] }, .sent (some old)) := by
      unfold BChan.broadcast_direct
      rw [if_neg (by simp [h1]), if_neg h2, if_pos h3]
      simp only [h4]
    rw [broadcast_event, hd]
  · intro α ch ev h1
    have hd : BChan.broadcast_direct ch ev = (ch, .failed ev) := by
      unfold BChan.broadcast_direct
      simp [h1]
    rw [broadcast_event, hd]
  · decide

/-- C9 witness: a full two-slot channel with one active subscriber drops its
oldest event 5 when event 9 is published, logging it at `error`; the
streamer's freshly constructed channel (no active subscribers) turns a send
into a logged `warn` no-op. -/
theorem c9_broadcast_event_witness :
    (broadcast_event 9 ⟨[5, 6], 2, true, false, 1, false⟩ =
      (⟨[6, 9], 2, true, false, 1, false⟩, [⟨.error, some 5⟩])) ∧
    (broadcast_event ⟨0, .daProposal 0⟩ EventsStreamer.new_channel =
      (EventsStreamer.new_channel, [⟨.warn, some ⟨0, .daProposal 0⟩⟩])) :=
  ⟨c9_broadcast_event.2.2.2.1 Nat ⟨[5, 6], 2, true, false, 1, false⟩ 9 5 [6]
      rfl (by decide) rfl rfl,
   c9_broadcast_event.2.2.2.2.1 EventT EventsStreamer.new_channel
      ⟨0, .daProposal 0⟩ rfl⟩

/-- C10: `EventsStreamer::handle_event` forwards an event to the subscriber
channel exactly when its type is `DaProposal`, `QuorumProposal`,
`Transactions` or `Decide`; every other event type is dropped without
touching the channel. -/
theorem c10_handle_event_filter :
    (∀ ev : EventT, EventsStreamer.event_filter ev = true ↔
      ((∃ d, ev.event = .daProposal d) ∨ (∃ d, ev.event = .quorumProposal d) ∨
       (∃ d, ev.event = .transactions d) ∨ (∃ d, ev.event = .decide d))) ∧
    (∀ (ch : BChan EventT) (ev : EventT), EventsStreamer.event_filter ev = false →
      EventsStreamer.handle_event ch ev = ch) ∧
    (∀ (ch : BChan EventT) (ev : EventT), EventsStreamer.event_filter ev = true →
      EventsStreamer.handle_event ch ev = (BChan.broadcast_direct ch ev).1) := by
  refine ⟨?_, ?_, ?_⟩
  · intro ev
    cases hev : ev.event <;> simp [EventsStreamer.event_filter, hev]
  · intro ch ev h
    simp [EventsStreamer.handle_event, h]
  · intro ch ev h
    simp [EventsStreamer.handle_event, h]

/-- C10 witness: a view-finished-style `otherEvent` is dropped by the fresh
streamer channel, while a `Decide` event is forwarded into the channel. -/
theorem c10_handle_event_filter_witness :
    EventsStreamer.event_filter ⟨1, .otherEvent 0⟩ = false ∧
    EventsStreamer.handle_event EventsStreamer.new_channel ⟨1, .otherEvent 0⟩ =
      EventsStreamer.new_channel ∧
    EventsStreamer.event_filter ⟨1, .decide 4⟩ = true ∧
    EventsStreamer.handle_event EventsStreamer.new_channel ⟨1, .decide 4⟩ =
      (BChan.broadcast_direct EventsStreamer.new_channel ⟨1, .decide 4⟩).1 :=
  ⟨rfl,
   c10_handle_event_filter.2.1 EventsStreamer.new_channel ⟨1, .otherEvent 0⟩ rfl,
   rfl,
   c10_handle_event_filter.2.2 EventsStreamer.new_channel ⟨1, .decide 4⟩ rfl⟩

/-! ### DA task -/

/-- C1: with the durable append failing, handling `DaProposalRecv` for a
valid, not-yet-processed proposal emits exactly `DaProposalValidated` — in
particular no `DaVoteSend` — and an explicit re-delivered
`DaProposalValidated` input for the same view then produces no output and
leaves the task state unchanged. -/
theorem c1_da_storage_failure (env : DaEnv) (st : DaTaskState)
    (v payload sender : Nat)
    (hfail : env.storage_append_ok = false)
    (hvalid : env.valid_proposal v sender = true)
    (hnew : st.processed_views.contains v = false) :
    (da_handle env st (.daProposalRecv v payload sender)).2 =
      [.daProposalValidated v payload sender] ∧
    HotShotEventT.daVoteSend v ∉ (da_handle env st (.daProposalRecv v payload sender)).2 ∧
    da_handle env (da_handle env st (.daProposalRecv v payload sender)).1
        (.daProposalValidated v payload sender) =
      ((da_handle env st (.daProposalRecv v payload sender)).1, []) := by
  have hstep : da_handle env st (.daProposalRecv v payload sender) =
      ({ st with processed_views := v :: st.processed_views },
       [.daProposalValidated v payload sender]) := by
    have hnotmem : v ∉ st.processed_views := by simpa using hnew
    unfold da_handle
    simp [hvalid, hnotmem, hfail]
  refine ⟨by rw [hstep], by rw [hstep]; simp, ?_⟩
  rw [hstep]
  unfold da_handle
  simp

/-- C1 witness: the storage-failure scenario at view 2 — proposal received
from an eligible sender while the append is failing — emits only the
validated event, and a re-delivered validated input yields nothing. -/
theorem c1_da_storage_failure_witness :
    (da_handle ⟨false, fun _ _ => true, fun _ => true, 0⟩ ⟨2, 2, []⟩
        (.daProposalRecv 2 42 1)).2 = [.daProposalValidated 2 42 1] ∧
    da_handle ⟨false, fun _ _ => true, fun _ => true, 0⟩ ⟨2, 2, [2]⟩
        (.daProposalValidated 2 42 1) = (⟨2, 2, [2]⟩, []) := by
  have h := c1_da_storage_failure ⟨false, fun _ _ => true, fun _ => true, 0⟩
    ⟨2, 2, []⟩ 2 42 1 rfl rfl rfl
  exact ⟨h.1, h.2.2⟩

end HotShot
